import Mathlib

/-!
Verification development for the retrieval filtering, scoring and rank-mass
selection engine of the semantic-search-engine repository.

The Lean definitions below are a shallow embedding of the Python source:

* `engine/controllers/search.py`
  (`DBSemanticSearchController.search_with_options`, the metadata-expression
  matcher, `prepare_documents_stats`, `get_accumulated_docs_by_rank_perc`,
  `DBTextSearchController.documents_names_from_categories`,
  `DBTextSearchController.document_names_relative_path_contains`)
* `data/controllers/query_templates.py`
  (`QueryTemplatesSearchGrammar`, `QueryTemplateFilterer`,
  `QueryTemplateController.filter_documents`)

Python `float` values are modelled as real numbers, Python exceptions as the
`Except Unit` monad (`.error ()` standing for any raised exception), Python
dictionaries as association lists in insertion order, and database querysets
as in-memory lists of records.  Calls into the database or to external
services (template lookup by id, ISO date parsing, `eval` of configured
filter-rule strings, the current date) are passed in as explicit parameters.
-/

set_option maxHeartbeats 1000000

deriving instance DecidableEq for Except

/-- Model of a JSON metadata value (`Document.metadata_json` content):
strings, integers, arrays and nested objects.  Objects are association
lists in insertion order, mirroring Python dictionaries. -/
inductive MetaValue where
  | str (s : String)
  | int (n : Int)
  | list (xs : List MetaValue)
  | obj (fields : List (String × MetaValue))
deriving Repr

mutual

/-- Decidable equality for metadata values (written by hand because
`deriving DecidableEq` does not handle this nested inductive). -/
def MetaValue.decEq : (a b : MetaValue) → Decidable (a = b)
  | .str a, .str b =>
    if h : a = b then .isTrue (by rw [h]) else .isFalse (fun hh => h (by cases hh; rfl))
  | .int a, .int b =>
    if h : a = b then .isTrue (by rw [h]) else .isFalse (fun hh => h (by cases hh; rfl))
  | .list a, .list b =>
    match MetaValue.decEqList a b with
    | .isTrue h => .isTrue (by rw [h])
    | .isFalse h => .isFalse (fun hh => h (by cases hh; rfl))
  | .obj a, .obj b =>
    match MetaValue.decEqFields a b with
    | .isTrue h => .isTrue (by rw [h])
    | .isFalse h => .isFalse (fun hh => h (by cases hh; rfl))
  | .str _, .int _ => .isFalse (fun hh => MetaValue.noConfusion hh)
  | .str _, .list _ => .isFalse (fun hh => MetaValue.noConfusion hh)
  | .str _, .obj _ => .isFalse (fun hh => MetaValue.noConfusion hh)
  | .int _, .str _ => .isFalse (fun hh => MetaValue.noConfusion hh)
  | .int _, .list _ => .isFalse (fun hh => MetaValue.noConfusion hh)
  | .int _, .obj _ => .isFalse (fun hh => MetaValue.noConfusion hh)
  | .list _, .str _ => .isFalse (fun hh => MetaValue.noConfusion hh)
  | .list _, .int _ => .isFalse (fun hh => MetaValue.noConfusion hh)
  | .list _, .obj _ => .isFalse (fun hh => MetaValue.noConfusion hh)
  | .obj _, .str _ => .isFalse (fun hh => MetaValue.noConfusion hh)
  | .obj _, .int _ => .isFalse (fun hh => MetaValue.noConfusion hh)
  | .obj _, .list _ => .isFalse (fun hh => MetaValue.noConfusion hh)

/-- Decidable equality on lists of metadata values. -/
def MetaValue.decEqList : (a b : List MetaValue) → Decidable (a = b)
  | [], [] => .isTrue rfl
  | [], _ :: _ => .isFalse (fun hh => List.noConfusion hh)
  | _ :: _, [] => .isFalse (fun hh => List.noConfusion hh)
  | a :: as, b :: bs =>
    match MetaValue.decEq a b, MetaValue.decEqList as bs with
    | .isTrue h1, .isTrue h2 => .isTrue (by rw [h1, h2])
    | .isFalse h1, _ => .isFalse (fun hh => h1 (by cases hh; rfl))
    | _, .isFalse h2 => .isFalse (fun hh => h2 (by cases hh; rfl))

/-- Decidable equality on object field lists. -/
def MetaValue.decEqFields : (a b : List (String × MetaValue)) → Decidable (a = b)
  | [], [] => .isTrue rfl
  | [], _ :: _ => .isFalse (fun hh => List.noConfusion hh)
  | _ :: _, [] => .isFalse (fun hh => List.noConfusion hh)
  | (k1, v1) :: as, (k2, v2) :: bs =>
    if hk : k1 = k2 then
      match MetaValue.decEq v1 v2, MetaValue.decEqFields as bs with
      | .isTrue h1, .isTrue h2 => .isTrue (by rw [hk, h1, h2])
      | .isFalse h1, _ => .isFalse (fun hh => h1 (by cases hh; rfl))
      | _, .isFalse h2 => .isFalse (fun hh => h2 (by cases hh; rfl))
    else
      .isFalse (fun hh => hk (by cases hh; rfl))

end

instance : DecidableEq MetaValue := MetaValue.decEq

namespace MetaValue

/-- Key lookup in an object association list (Python `dict.get`):
first binding for the key, if any. -/
def lookupKey (fields : List (String × MetaValue)) (k : String) : Option MetaValue :=
  match fields with
  | [] => none
  | (k1, v) :: rest => if k1 = k then some v else lookupKey rest k

/-- Python `type(v) in [dict]`. -/
def isObj : MetaValue → Bool
  | .obj _ => true
  | _ => false

/-- Python `type(v) in [list]`. -/
def isList : MetaValue → Bool
  | .list _ => true
  | _ => false

end MetaValue

/-- Python substring test `needle in haystack` on strings. -/
def strContains (needle haystack : String) : Bool :=
  decide (needle.data <:+: haystack.data)

/-- Python membership `x in container` for a metadata value: key membership
for dicts (raising `TypeError` for unhashable keys), element membership for
lists, substring test for strings (raising `TypeError` for a non-string
left operand), `TypeError` for integers. -/
def pyMem (x container : MetaValue) : Except Unit Bool :=
  match container with
  | .obj m =>
    match x with
    | .str s => .ok (m.any (fun p => p.1 = s))
    | .int _ => .ok false
    | _ => .error ()
  | .list l => .ok (l.any (fun e => e == x))
  | .str s =>
    match x with
    | .str t => .ok (strContains t s)
    | _ => .error ()
  | .int _ => .error ()

/-- Python indexing `container[k]` with a string key: field access for
dicts (`KeyError` if absent), `TypeError` for lists, strings and ints. -/
def pyIndex (container : MetaValue) (k : String) : Except Unit MetaValue :=
  match container with
  | .obj m =>
    match MetaValue.lookupKey m k with
    | some v => .ok v
    | none => .error ()
  | _ => .error ()

/-- Python `list(v)`: identity on lists, the characters of a string as
one-character strings, the keys of a dict, `TypeError` for an int. -/
def pyToList : MetaValue → Except Unit (List MetaValue)
  | .list l => .ok l
  | .str s => .ok (s.data.map (fun c => MetaValue.str (String.mk [c])))
  | .obj m => .ok (m.map (fun p => MetaValue.str p.1))
  | .int _ => .error ()

/-- Python `set(l)` hashability requirement: every element must be neither
a list nor a dict (our model has no other unhashable values). -/
def hashableElems (l : List MetaValue) : Bool :=
  l.all (fun v => !v.isObj && !v.isList)

mutual

/-- Python rich comparison used by `<`, `>`, `<=`, `>=`: defined for
int/int, str/str and list/list, `TypeError` otherwise. -/
def pyCompare : MetaValue → MetaValue → Except Unit Ordering
  | .int a, .int b => .ok (compare a b)
  | .str a, .str b => .ok (compare a b)
  | .list a, .list b => pyCompareList a b
  | _, _ => .error ()

/-- Python list comparison: skip equal prefixes, compare the first
differing elements, shorter list first on exhaustion. -/
def pyCompareList : List MetaValue → List MetaValue → Except Unit Ordering
  | [], [] => .ok .eq
  | [], _ :: _ => .ok .lt
  | _ :: _, [] => .ok .gt
  | a :: as, b :: bs => if a == b then pyCompareList as bs else pyCompare a b

end

/-- ASCII lower-casing of one character (Python `str.lower` restricted to
the ASCII range, which covers every operator string the source uses). -/
def lowerChar (c : Char) : Char :=
  if 'A' ≤ c ∧ c ≤ 'Z' then Char.ofNat (c.toNat + 32) else c

/-- ASCII whitespace test (Python `str.strip` default characters). -/
def isSpaceChar (c : Char) : Bool :=
  c = ' ' || c = '\t' || c = '\n' || c = '\r'

/-- Python `s.lower().strip()` as applied to operator names. -/
def pyLowerStrip (s : String) : String :=
  String.mk
    ((((s.data.map lowerChar).dropWhile isSpaceChar).reverse.dropWhile
        isSpaceChar).reverse)

/-- `DBSemanticSearchController.POSSIBLE_OPERATORS` (search.py line 169). -/
def POSSIBLE_OPERATORS : List String :=
  ["in", "eq", "ne", "gt", "lt", "gte", "lte", "hse"]

/-- `DBSemanticSearchController.__check_expression_operator_value`
(search.py lines 884-939): evaluate a primitive comparison between an
expression value and a metadata value.  Note that for `hse` the expression
side is coerced with Python `list(...)` (iterating the value) while the
metadata side is wrapped into a singleton list, and that the `ge`/`le`
branches of the source are unreachable through validation, which only
admits `gte`/`lte` (which fall into the final `else` returning `False`). -/
def check_expression_operator_value (expr_operator : String)
    (expr_value metadata_value : MetaValue) : Except Unit Bool :=
  let op := pyLowerStrip expr_operator
  if op = "in" then
    pyMem expr_value metadata_value
  else if op = "eq" then
    .ok (expr_value == metadata_value)
  else if op = "ne" then
    .ok (!(expr_value == metadata_value))
  else if op = "gt" then
    (pyCompare expr_value metadata_value).map (fun o => o = Ordering.gt)
  else if op = "lt" then
    (pyCompare expr_value metadata_value).map (fun o => o = Ordering.lt)
  else if op = "ge" then
    (pyCompare expr_value metadata_value).map (fun o => o ≠ Ordering.lt)
  else if op = "le" then
    (pyCompare expr_value metadata_value).map (fun o => o ≠ Ordering.gt)
  else if op = "hse" then
    if expr_value.isObj || metadata_value.isObj then .ok false
    else
      -- Python: `if type(expr_value) not in [list]: expr_value = list(expr_value)`
      match (match expr_value with
             | .list l => Except.ok l
             | v => pyToList v) with
      | .error e => .error e
      | .ok el =>
        let ml := match metadata_value with
                  | .list l => l
                  | v => [v]
        if hashableElems el then
          if hashableElems ml then
            .ok (el.any (fun e => ml.any (fun m => m == e)))
          else .error ()
        else .error ()
  else
    -- unknown operator: an error is logged and `False` returned
    .ok false

/-- A metadata filter expression as passed in `search_params["metadata_filters"]`:
a Python dict with optional `operator` and `field` entries (`field` is itself
a possibly-nested dict). -/
structure Expression where
  operator : Option String
  field : Option (List (String × MetaValue))
deriving DecidableEq, Repr

/-- A document record (`data/models.py`, class `Document`), restricted to the
fields the search engine reads. -/
structure Document where
  name : String
  relative_path : String
  category : Option String
  use_in_search : Bool
  metadata_json : Option (List (String × MetaValue))
deriving DecidableEq, Repr

/-- `DBSemanticSearchController.__is_properly_matched_expression_with_metadata`
(search.py lines 845-882): recursively evaluate a nested metadata expression
against a document's metadata.  The Python `for` loop returns in every branch
of its first iteration, so only the first key of `expr_dict` is ever examined
and an empty dict falls through to `return False`. -/
def is_properly_matched_expression_with_metadata (expr_operator : String)
    (expr_dict : List (String × MetaValue)) (metadata : MetaValue) :
    Except Unit Bool :=
  match expr_dict with
  | [] => .ok false
  | (k, v) :: _ =>
    (pyMem (.str k) metadata).bind (fun mem =>
      if !mem then .ok false
      else
        match v with
        | .obj sub =>
          (pyIndex metadata k).bind (fun mval =>
            is_properly_matched_expression_with_metadata expr_operator sub mval)
        | _ =>
          (pyIndex metadata k).bind (fun mval =>
            check_expression_operator_value expr_operator v mval))

/-- `DBSemanticSearchController.__is__proper__expression`
(search.py lines 941-965): an expression is well-formed when it has both an
`operator` and a `field` and the operator is in `POSSIBLE_OPERATORS`. -/
def is__proper__expression (expression : Expression) : Bool :=
  match expression.operator, expression.field with
  | some op, some _ => POSSIBLE_OPERATORS.contains op
  | _, _ => false

/-- `DBSemanticSearchController.__is_document_covered_with_metadata_expression`
(search.py lines 813-843): documents with `None` or empty metadata never
match; otherwise the expression is `assert`-validated (an `AssertionError`
propagates for a malformed expression) and then matched recursively. -/
def is_document_covered_with_metadata_expression (document : Document)
    (expression : Expression) : Except Unit Bool :=
  match document.metadata_json with
  | none => .ok false
  | some m =>
    if m.isEmpty then .ok false
    else if !(is__proper__expression expression) then .error ()
    else
      match expression.operator, expression.field with
      | some op, some f => is_properly_matched_expression_with_metadata op f (.obj m)
      | _, _ => .error ()

/-- The lower-cased, stripped `hse` operator string is `hse` itself. -/
theorem hse_lower_strip : pyLowerStrip "hse" = "hse" := by decide

/-- Both-sided `hse` intersection tests agree (Boolean exists-commutation). -/
theorem any_mem_comm (a b : List MetaValue) :
    (a.any fun e => b.any fun m => m == e) = (b.any fun e => a.any fun m => m == e) := by
  rw [Bool.eq_iff_iff]
  simp only [List.any_eq_true, beq_iff_eq]
  constructor
  · rintro ⟨x, hx, y, hy, h⟩
    exact ⟨y, hy, x, hx, h.symm⟩
  · rintro ⟨x, hx, y, hy, h⟩
    exact ⟨y, hy, x, hx, h.symm⟩

/-- Claim C4 counterexample: `hse` is not symmetric under swapping the
expression value and the metadata value.  With expression value `"ab"` and
metadata value `["a"]` the result is `True` (Python `list("ab")` iterates
the string into characters `["a", "b"]`), but with the operands swapped the
metadata side is wrapped into the singleton `["ab"]` and the result is
`False`. -/
theorem hse_not_symmetric :
    check_expression_operator_value "hse" (.str "ab") (.list [.str "a"]) = .ok true ∧
    check_expression_operator_value "hse" (.list [.str "a"]) (.str "ab") = .ok false := by
  constructor <;> decide

/-- Claim C4 amended: an `hse` comparison in which either operand is a
nested map returns `false`; and `hse` is symmetric when both operands are
already lists (the general symmetry fails because the expression side is
coerced by iterating the value while the metadata side becomes a singleton
list). -/
theorem hse_dict_false_and_symmetric_on_lists
    (fields : List (String × MetaValue)) (ev mv : MetaValue)
    (l1 l2 : List MetaValue) :
    check_expression_operator_value "hse" (.obj fields) mv = .ok false ∧
    check_expression_operator_value "hse" ev (.obj fields) = .ok false ∧
    check_expression_operator_value "hse" (.list l1) (.list l2) =
      check_expression_operator_value "hse" (.list l2) (.list l1) := by
  refine ⟨?_, ?_, ?_⟩
  · simp [check_expression_operator_value, hse_lower_strip, MetaValue.isObj]
  · simp [check_expression_operator_value, hse_lower_strip, MetaValue.isObj]
  · cases h1 : hashableElems l1 <;> cases h2 : hashableElems l2 <;>
      simp [check_expression_operator_value, hse_lower_strip, MetaValue.isObj,
        h1, h2, any_mem_comm]

/-- Claim C10: the recursive metadata matcher examines only the first key
of the field map at each nesting level (the Python loop returns in every
branch of its first iteration), and an empty field map evaluates to
`false`. -/
theorem matcher_first_key_determines
    (op k : String) (v : MetaValue) (r1 r2 : List (String × MetaValue))
    (m : MetaValue) :
    is_properly_matched_expression_with_metadata op ((k, v) :: r1) m =
      is_properly_matched_expression_with_metadata op ((k, v) :: r2) m ∧
    is_properly_matched_expression_with_metadata op [] m = .ok false := by
  constructor
  · rw [is_properly_matched_expression_with_metadata.eq_def]
    conv_rhs => rw [is_properly_matched_expression_with_metadata.eq_def]
  · rw [is_properly_matched_expression_with_metadata.eq_def]

/-- Python `s.strip()` (ASCII whitespace). -/
def pyStrip (s : String) : String :=
  String.mk (((s.data.dropWhile isSpaceChar).reverse.dropWhile isSpaceChar).reverse)

/-- Sequential filtering in the `Except` monad: the model of a Python loop
that tests each element in order, propagating the first raised exception. -/
def filterExcept {α : Type} (p : α → Except Unit Bool) : List α → Except Unit (List α)
  | [] => .ok []
  | d :: rest =>
    (p d).bind (fun c =>
      (filterExcept p rest).map (fun r => if c then d :: r else r))

/-- `DBSemanticSearchController.__get_documents_with_metadata_filter_expression`
(search.py lines 783-811): all documents of the collection satisfying one
expression, in collection order. -/
def get_documents_with_metadata_filter_expression (collectionDocs : List Document)
    (expression : Expression) : Except Unit (List Document) :=
  filterExcept
    (fun doc => is_document_covered_with_metadata_expression doc expression)
    collectionDocs

/-- `DBSemanticSearchController.__filter_documents_based_on_metadata`
(search.py lines 689-781): resolve each metadata filter to a name list,
drop empty lists, then fold the remaining lists with set intersection
(`use_and_operator`) or union.  Python returns `list(set(...))`, whose
order is unspecified, so the model returns the name set itself. -/
def filter_documents_based_on_metadata (collectionDocs : List Document)
    (metadata_filters : List Expression) (use_and_operator : Bool) :
    Except Unit (Finset String) :=
  if metadata_filters.isEmpty then .ok ∅
  else
    (metadata_filters.mapM (fun f =>
        get_documents_with_metadata_filter_expression collectionDocs f)).map
      (fun docLists =>
        let all_doc_names :=
          (docLists.map (fun ds => ds.map Document.name)).filter
            (fun l => !l.isEmpty)
        match all_doc_names with
        | [] => (∅ : Finset String)
        | first :: rest =>
          rest.foldl
            (fun acc l =>
              if use_and_operator then l.toFinset ∩ acc else l.toFinset ∪ acc)
            first.toFinset)

/-- A configured filter-rule value inside `data_filter_expressions`: either a
textual comparison rule (evaluated with Python `eval` after substituting the
document's value) or a nested map of per-field rules. -/
inductive FilterExpr where
  | rule (s : String)
  | nested (m : List (String × FilterExpr))

/-- A query template record (`data/models.py`, class `QueryTemplate`),
restricted to the fields used at search time. -/
structure QueryTemplate where
  data_connector : List (String × MetaValue)
  data_filter_expressions : Option (List (String × FilterExpr))
  system_prompt : Option String

/-- Grammar actions of `QueryTemplatesSearchGrammar.Actions`. -/
inductive GrammarAction where
  | end_date_older_than_today
  | show_whole
deriving DecidableEq, Repr

/-- `QueryTemplatesSearchGrammar.CONSTANT_TYPE_ACTIONS`
(query_templates.py lines 46-59): per document type, the (search,
presentation) action lists. -/
def CONSTANT_TYPE_ACTIONS :
    List (String × (List GrammarAction × List GrammarAction)) :=
  [("event", ([.end_date_older_than_today], [.show_whole])),
   ("address", ([], [.show_whole])),
   ("other", ([], []))]

/-- `QueryTemplatesSearchGrammar.GrammarFunctions.__end_date_is_older_than_today`
(query_templates.py lines 77-99).  Despite its name the function returns
`True` when the document's normalized end date is **on or after** today.
`parseDate` models `dateutil.parser.isoparse` followed by the
`astimezone/replace` day normalization (returning a day number, `none` for
a parse failure, which raises); `today` is the normalized current day. -/
def end_date_is_older_than_today (parseDate : String → Option Int) (today : Int)
    (d : Document) : Except Unit Bool :=
  match d.metadata_json with
  | none => .ok false
  | some m =>
    if m.isEmpty then .ok false
    else
      -- document_date = metadata.get("date", {})
      (match MetaValue.lookupKey m "date" with
       | none => Except.ok []
       | some (.obj dm) => Except.ok dm
       | some _ => Except.error ()).bind (fun dm =>
        -- end_date_str = document_date.get("end", "").strip()
        (match MetaValue.lookupKey dm "end" with
         | none => Except.ok ""
         | some (.str s) => Except.ok s
         | some _ => Except.error ()).bind (fun s0 =>
          let s := pyStrip s0
          if s.isEmpty then .ok false
          else
            match parseDate s with
            | none => .error ()
            | some endDay => .ok (endDay ≥ today)))

/-- `QueryTemplatesSearchGrammar.GrammarFunctions.accept_document`
(query_templates.py lines 67-75): only `end_date_older_than_today` is in
the actions mapping; every other action fails the `assert`. -/
def accept_document (parseDate : String → Option Int) (today : Int)
    (action : GrammarAction) (d : Document) : Except Unit Bool :=
  match action with
  | .end_date_older_than_today => end_date_is_older_than_today parseDate today d
  | .show_whole => .error ()

/-- `QueryTemplatesSearchGrammar.use_document_in_sse`
(query_templates.py lines 120-144) with `skip_if_any_problem=True` (the only
way `QueryTemplateController.filter_documents` calls it): resolve the
document type from metadata (`AttributeError` when `metadata_json` is
`None`, `TypeError` for an unhashable type value), reject unknown types,
and run the type's search actions, swallowing any exception an action
raises (which accepts the document). -/
def use_document_in_sse_grammar (parseDate : String → Option Int) (today : Int)
    (d : Document) : Except Unit Bool :=
  match d.metadata_json with
  | none => .error ()
  | some m =>
    (match MetaValue.lookupKey m "type" with
     | none => Except.ok none
     | some (.str s) => Except.ok (CONSTANT_TYPE_ACTIONS.lookup s)
     | some (.int _) => Except.ok none
     | some _ => Except.error ()).bind (fun ta =>
      match ta with
      | none => .ok false
      | some acts =>
        .ok (acts.1.all (fun a =>
          match accept_document parseDate today a d with
          | .ok b => b
          | .error _ => true)))

/-- Inner rule loop of `QueryTemplateFilterer.use_document_in_sse`
(query_templates.py lines 237-252): evaluate each collected
(rule, document value) pair in order.  The document value is substituted
textually into the rule (`TypeError` for a non-string value, raised outside
the `try`), then the rule is evaluated; `evalRule` models
`eval(expression.replace(VALUE_OF_DATA_EVAL_EXPRESSION, doc_value))` with
evaluation exceptions already folded into a `False` result (the source
catches them and sets `accept_document = False`).  Returns `false` at the
first rejecting rule, `true` when all pairs accept. -/
def eval_rule_pairs (evalRule : String → String → Bool) :
    List (String × MetaValue) → Except Unit Bool
  | [] => .ok true
  | (rule, dv) :: rest =>
    match dv with
    | .str s => if evalRule rule s then eval_rule_pairs evalRule rest else .ok false
    | _ => .error ()

/-- Pair collection for a nested `data_filter_expressions` entry
(query_templates.py lines 206-215): walk the sub-map, raising on a
doubly-nested rule, skipping fields absent from the document's sub-map. -/
def collect_pairs : List (String × FilterExpr) → List (String × MetaValue) →
    Except Unit (List (String × MetaValue))
  | [], _ => .ok []
  | (_, .nested _) :: _, _ => .error ()
  | (var2, .rule s) :: rest, dm =>
    match MetaValue.lookupKey dm var2 with
    | none => collect_pairs rest dm
    | some dv => (collect_pairs rest dm).map (fun ps => (s, dv) :: ps)

/-- Outer loop of `QueryTemplateFilterer.use_document_in_sse`
(query_templates.py lines 187-263) over the `data_filter_expressions`
entries, carrying the `all_constraints_ok` accumulator. -/
def filterer_opts_loop (evalRule : String → String → Bool)
    (doc_md : List (String × MetaValue)) :
    List (String × FilterExpr) → Bool → Except Unit Bool
  | [], all_ok => .ok all_ok
  | (var1, expr1) :: rest, all_ok =>
    match MetaValue.lookupKey doc_md var1 with
    | none => filterer_opts_loop evalRule doc_md rest all_ok
    | some dv1 =>
      match expr1 with
      | .nested sub =>
        match dv1 with
        | .obj dm =>
          (collect_pairs sub dm).bind (fun pairs =>
            if pairs.isEmpty then filterer_opts_loop evalRule doc_md rest all_ok
            else
              (eval_rule_pairs evalRule pairs).bind (fun ok =>
                if ok then filterer_opts_loop evalRule doc_md rest true
                else .ok false))
        | _ => .error ()
      | .rule s =>
        (eval_rule_pairs evalRule [(s, dv1)]).bind (fun ok =>
          if ok then filterer_opts_loop evalRule doc_md rest true else .ok false)

/-- `QueryTemplateFilterer.use_document_in_sse`
(query_templates.py lines 162-263): a document with `None` or empty
metadata is rejected; a template without `data_filter_expressions` accepts
every such document; otherwise the expression loop runs with
`all_constraints_ok` initially `False`. -/
def filterer_use_document_in_sse (evalRule : String → String → Bool)
    (qt : QueryTemplate) (d : Document) : Except Unit Bool :=
  match d.metadata_json with
  | none => .ok false
  | some m =>
    if m.isEmpty then .ok false
    else
      match qt.data_filter_expressions with
      | none => .ok true
      | some fo =>
        if fo.isEmpty then .ok true
        else filterer_opts_loop evalRule m fo false

/-- Second-pass acceptance loop of `QueryTemplateController.filter_documents`
(query_templates.py lines 423-432): a document is kept when every template's
filterer accepts it (with early break at the first rejection). -/
def all_templates_accept (evalRule : String → String → Bool)
    (d : Document) : List QueryTemplate → Except Unit Bool
  | [] => .ok true
  | qt :: rest =>
    (filterer_use_document_in_sse evalRule qt d).bind (fun ok =>
      if ok then all_templates_accept evalRule d rest else .ok false)

/-- `QueryTemplateController.filter_documents`
(query_templates.py lines 404-433): grammar pass first (date-validity per
document type), early exit on an empty result, then the per-template
filter-expression pass. -/
def filter_documents (parseDate : String → Option Int) (today : Int)
    (evalRule : String → String → Bool) (documents : List Document)
    (query_templates : List QueryTemplate) : Except Unit (List Document) :=
  (filterExcept (fun d => use_document_in_sse_grammar parseDate today d)
      documents).bind (fun f_docs =>
    if f_docs.isEmpty then .ok []
    else filterExcept (fun d => all_templates_accept evalRule d query_templates) f_docs)

/-- Python dict assignment `data_filter[k] = v` on an association list. -/
def assocSet (l : List (String × MetaValue)) (k : String) (v : MetaValue) :
    List (String × MetaValue) :=
  if l.any (fun p => p.1 = k) then l.map (fun p => if p.1 = k then (k, v) else p)
  else l ++ [(k, v)]

/-- `DBSemanticSearchController.__get_documents_based_on_templates`
(search.py lines 1248-1290) with `return_documents_names=True` (the call
made by `search_with_options`): merge all templates' `data_connector`
entries into one exact-match filter, apply it Django-style over the
collection (`use_in_search=True`; an empty filter admits every such
document), then run `QueryTemplateController.filter_documents` and return
the names. -/
def get_documents_based_on_templates (parseDate : String → Option Int)
    (today : Int) (evalRule : String → String → Bool)
    (query_templates : List QueryTemplate) (collectionDocs : List Document) :
    Except Unit (List String) :=
  let data_filter :=
    query_templates.foldl
      (fun acc t => t.data_connector.foldl (fun a kv => assocSet a kv.1 kv.2) acc) []
  let template_docs :=
    collectionDocs.filter (fun d =>
      d.use_in_search &&
      data_filter.all (fun kv =>
        match d.metadata_json with
        | some m => MetaValue.lookupKey m kv.1 == some kv.2
        | none => false))
  (filter_documents parseDate today evalRule template_docs query_templates).map
    (fun ds => ds.map Document.name)

/-- When every element's test returns `ok` of a Boolean predicate,
`filterExcept` is an ordinary filter. -/
theorem filterExcept_eq_filter {α : Type} (p : α → Except Unit Bool)
    (q : α → Bool) :
    ∀ l : List α, (∀ x ∈ l, p x = .ok (q x)) → filterExcept p l = .ok (l.filter q)
  | [], _ => rfl
  | d :: rest, h => by
    have hd := h d (List.mem_cons_self d rest)
    have ih := filterExcept_eq_filter p q rest
      (fun x hx => h x (List.mem_cons_of_mem d hx))
    simp only [filterExcept, hd, ih, Except.bind, Except.map, List.filter_cons]

/-- Membership in an `ok` result of `filterExcept` implies membership in the
input and an `ok true` test result. -/
theorem filterExcept_ok_mem {α : Type} (p : α → Except Unit Bool) :
    ∀ (l r : List α), filterExcept p l = .ok r → ∀ x ∈ r, x ∈ l ∧ p x = .ok true
  | [], r, hr, x, hx => by
    simp only [filterExcept] at hr
    cases hr
    cases hx
  | d :: rest, r, hr, x, hx => by
    simp only [filterExcept] at hr
    cases hp : p d with
    | error e => rw [hp] at hr; cases hr
    | ok c =>
      rw [hp] at hr
      cases hrec : filterExcept p rest with
      | error e => rw [hrec] at hr; cases hr
      | ok r' =>
        rw [hrec] at hr
        simp only [Except.bind, Except.map] at hr
        cases hr
        have ih := filterExcept_ok_mem p rest r' hrec
        cases c with
        | true =>
          rcases List.mem_cons.mp hx with h | h
          · subst h
            exact ⟨List.mem_cons_self x rest, hp⟩
          · rcases ih x h with ⟨h1, h2⟩
            exact ⟨List.mem_cons_of_mem d h1, h2⟩
        | false =>
          rcases ih x hx with ⟨h1, h2⟩
          exact ⟨List.mem_cons_of_mem d h1, h2⟩

/-- Specification-side date condition extracted from the grammar check for
`event` documents: the metadata `date.end` must be a nonempty string (after
stripping) that either fails to parse (the raised parse exception is
swallowed, accepting the document) or normalizes to a day on or after
today; a non-map `date` or non-string `end` value also leads to acceptance
through the swallowed-exception path. -/
def event_date_ok (parseDate : String → Option Int) (today : Int)
    (m : List (String × MetaValue)) : Bool :=
  match MetaValue.lookupKey m "date" with
  | none => false
  | some (.obj dm) =>
    (match MetaValue.lookupKey dm "end" with
     | none => false
     | some (.str s) =>
       if (pyStrip s).isEmpty then false
       else
         match parseDate (pyStrip s) with
         | none => true
         | some endDay => decide (endDay ≥ today)
     | some _ => true)
  | some _ => true

/-- On a document whose metadata holds `type = "event"`, the grammar check
returns `ok` of the date condition (never an exception). -/
theorem grammar_event_eval (parseDate : String → Option Int) (today : Int)
    (d : Document) (m : List (String × MetaValue))
    (hm : d.metadata_json = some m)
    (ht : MetaValue.lookupKey m "type" = some (.str "event")) :
    use_document_in_sse_grammar parseDate today d =
      .ok (event_date_ok parseDate today m) := by
  have hne : m.isEmpty = false := by
    cases m with
    | nil => simp [MetaValue.lookupKey] at ht
    | cons a l => rfl
  simp only [use_document_in_sse_grammar, hm, ht]
  have hlk : CONSTANT_TYPE_ACTIONS.lookup "event" =
      some ([GrammarAction.end_date_older_than_today], [GrammarAction.show_whole]) := rfl
  simp only [hlk, Except.bind, List.all_cons, List.all_nil, Bool.and_true,
    accept_document, end_date_is_older_than_today, hm, hne, Bool.false_eq_true,
    if_false, event_date_ok]
  cases hd : MetaValue.lookupKey m "date" with
  | none =>
    simp [Except.bind, MetaValue.lookupKey, pyStrip, isSpaceChar, String.isEmpty]
  | some v =>
    cases v with
    | obj dm =>
      simp only [Except.bind]
      cases he : MetaValue.lookupKey dm "end" with
      | none => simp [Except.bind, show (pyStrip "").isEmpty = true from rfl]
      | some w =>
        cases w with
        | str s =>
          simp only []
          cases hs : (pyStrip s).isEmpty with
          | true => simp [hs]
          | false =>
            simp only [hs, Bool.false_eq_true, if_false]
            cases hp : parseDate (pyStrip s) with
            | none => simp [hp]
            | some endDay => simp [hp]
        | int n => simp
        | list xs => simp
        | obj f2 => simp
    | str s => simp [Except.bind]
    | int n => simp [Except.bind]
    | list xs => simp [Except.bind]

/-- The query template of claim C3: `data_connector = {"type": "event"}` and
no `data_filter_expressions`. -/
def eventTemplate : QueryTemplate :=
  { data_connector := [("type", .str "event")]
    data_filter_expressions := none
    system_prompt := none }

/-- An `event` document with no date metadata at all. -/
def eventDocNoDate : Document :=
  { name := "doc-event"
    relative_path := "p"
    category := none
    use_in_search := true
    metadata_json := some [("type", .str "event")] }

/-- Specification-side admission predicate for the amended claim C3: the
document must be searchable, its metadata `type` must equal `"event"`, and
the grammar date condition (`event_date_ok`) must hold. -/
def event_template_admits (parseDate : String → Option Int) (today : Int)
    (d : Document) : Bool :=
  d.use_in_search &&
  (match d.metadata_json with
   | none => false
   | some m =>
     (MetaValue.lookupKey m "type" == some (.str "event")) &&
     event_date_ok parseDate today m)

/-- Claim C3 counterexample: the event template does **not** admit an
`event` document regardless of its date metadata — a document whose
metadata has no date at all is filtered out (the grammar's end-date check
returns `False` for a missing or empty end date), so the template-based
document filter returns no documents instead of `["doc-event"]`. -/
theorem event_template_excludes_dateless :
    get_documents_based_on_templates (fun _ => none) 0 (fun _ _ => false)
      [eventTemplate] [eventDocNoDate] = .ok [] := by decide

/-- Claim C3 amended: with `data_connector = {"type": "event"}` and no
filter expressions, template-based document filtering admits exactly the
searchable documents whose metadata `type` equals `"event"` **and** whose
`date.end` passes the grammar date condition: a nonempty end-date string
that parses to a day on or after today (or fails to parse, or is held in a
non-map `date` / non-string `end` value, whose exceptions are swallowed as
acceptance); documents with an absent or empty end date, or an end date
before today, are excluded. -/
theorem event_template_admission (parseDate : String → Option Int)
    (today : Int) (evalRule : String → String → Bool) (docs : List Document) :
    get_documents_based_on_templates parseDate today evalRule
        [eventTemplate] docs =
      .ok ((docs.filter (event_template_admits parseDate today)).map
        Document.name) := by
  have hdf : ([eventTemplate].foldl
      (fun acc t => t.data_connector.foldl (fun a kv => assocSet a kv.1 kv.2) acc)
      []) = [("type", MetaValue.str "event")] := rfl
  simp only [get_documents_based_on_templates, hdf]
  set tq : Document → Bool := fun d =>
    d.use_in_search &&
    [("type", MetaValue.str "event")].all (fun kv =>
      match d.metadata_json with
      | some m => MetaValue.lookupKey m kv.1 == some kv.2
      | none => false) with htq
  set gq : Document → Bool := fun d =>
    match d.metadata_json with
    | some m => event_date_ok parseDate today m
    | none => false with hgq
  have hmeta : ∀ d, tq d = true →
      ∃ m, d.metadata_json = some m ∧
        MetaValue.lookupKey m "type" = some (.str "event") := by
    intro d hd
    rw [htq] at hd
    simp only [Bool.and_eq_true, List.all_cons, List.all_nil, Bool.and_true] at hd
    rcases hd with ⟨_, hd2⟩
    cases hj : d.metadata_json with
    | none => rw [hj] at hd2; cases hd2
    | some m =>
      rw [hj] at hd2
      refine ⟨m, rfl, ?_⟩
      exact eq_of_beq hd2
  have hpass1 : filterExcept
      (fun d => use_document_in_sse_grammar parseDate today d)
      (docs.filter tq) = .ok ((docs.filter tq).filter gq) := by
    apply filterExcept_eq_filter
    intro x hx
    rcases hmeta x (List.of_mem_filter hx) with ⟨m, hm, htype⟩
    rw [grammar_event_eval parseDate today x m hm htype, hgq]
    simp only [hm]
  have hpass2 : ∀ d, gq d = true → tq d = true →
      all_templates_accept evalRule d [eventTemplate] = .ok true := by
    intro d _ htd
    rcases hmeta d htd with ⟨m, hm, htype⟩
    have hne : m.isEmpty = false := by
      cases m with
      | nil => simp [MetaValue.lookupKey] at htype
      | cons a l => rfl
    simp [all_templates_accept, filterer_use_document_in_sse, hm, hne,
      eventTemplate, Except.bind]
  simp only [filter_documents, hpass1, Except.bind]
  have hfinal : (docs.filter tq).filter gq =
      docs.filter (event_template_admits parseDate today) := by
    rw [List.filter_filter]
    apply List.filter_congr
    intro d _
    rw [htq, hgq]
    simp only [event_template_admits, List.all_cons, List.all_nil, Bool.and_true]
    cases hj : d.metadata_json with
    | none => simp
    | some m => simp [Bool.and_assoc, Bool.and_comm, Bool.and_left_comm]
  cases hfe : ((docs.filter tq).filter gq).isEmpty with
  | true =>
    rw [List.isEmpty_iff] at hfe
    rw [hfe] at hfinal
    simp [hfe, ← hfinal, Except.map]
  | false =>
    simp only [hfe, Bool.false_eq_true, if_false]
    have hall : filterExcept
        (fun d => all_templates_accept evalRule d [eventTemplate])
        ((docs.filter tq).filter gq) =
        .ok (((docs.filter tq).filter gq).filter (fun _ => true)) := by
      apply filterExcept_eq_filter
      intro x hx
      exact hpass2 x (List.of_mem_filter hx)
        (List.of_mem_filter (List.mem_of_mem_filter hx))
    rw [hall]
    simp only [List.filter_true, Except.map, hfinal]

/-- Claim C9: a document whose metadata `type` is missing or is not one of
`"event"`, `"address"`, `"other"` never qualifies for any template: whenever
`QueryTemplateController.filter_documents` returns a result list, the
document is not in it (the grammar pass rejects it before any template or
filter expression is consulted, even for a template with an empty
`data_connector` and no `data_filter_expressions`). -/
theorem unknown_type_documents_never_qualify (parseDate : String → Option Int)
    (today : Int) (evalRule : String → String → Bool)
    (docs : List Document) (query_templates : List QueryTemplate)
    (d : Document) (m : List (String × MetaValue)) (res : List Document)
    (hm : d.metadata_json = some m)
    (ht : ∀ s, MetaValue.lookupKey m "type" = some (.str s) →
          s ≠ "event" ∧ s ≠ "address" ∧ s ≠ "other")
    (hres : filter_documents parseDate today evalRule docs query_templates = .ok res) :
    d ∉ res := by
  intro hd
  simp only [filter_documents] at hres
  cases h1 : filterExcept
      (fun d => use_document_in_sse_grammar parseDate today d) docs with
  | error e => rw [h1] at hres; cases hres
  | ok f_docs =>
    rw [h1] at hres
    simp only [Except.bind] at hres
    by_cases hfe : f_docs.isEmpty = true
    · rw [if_pos hfe] at hres
      cases hres
      cases hd
    · rw [if_neg hfe] at hres
      have hmem2 := filterExcept_ok_mem _ f_docs res hres d hd
      have hmem1 := filterExcept_ok_mem _ docs f_docs h1 d hmem2.1
      have hgram := hmem1.2
      simp only [use_document_in_sse_grammar, hm] at hgram
      cases hty : MetaValue.lookupKey m "type" with
      | none => rw [hty] at hgram; simp [Except.bind] at hgram
      | some v =>
        rw [hty] at hgram
        cases v with
        | str s =>
          rcases ht s hty with ⟨h1', h2', h3'⟩
          have hlk : CONSTANT_TYPE_ACTIONS.lookup s = none := by
            simp [CONSTANT_TYPE_ACTIONS, List.lookup,
              show (s == "event") = false from by
                simp [beq_eq_false_iff_ne, h1'],
              show (s == "address") = false from by
                simp [beq_eq_false_iff_ne, h2'],
              show (s == "other") = false from by
                simp [beq_eq_false_iff_ne, h3']]
          simp [hlk, Except.bind] at hgram
        | int n => simp [Except.bind] at hgram
        | list xs => simp [Except.bind] at hgram
        | obj f => simp [Except.bind] at hgram

/-- `DBTextSearchController.documents_names_from_categories`
(search.py lines 1383-1412) with `only_used_to_search=True`: distinct names
of searchable documents whose category is among the given ones (the Django
queryset is unordered, so the model returns the name set). -/
def documents_names_from_categories (collectionDocs : List Document)
    (categories : List String) : Finset String :=
  ((collectionDocs.filter (fun d =>
      (match d.category with
       | some c => categories.contains c
       | none => false) && d.use_in_search)).map Document.name).toFinset

/-- `DBTextSearchController.document_names_relative_path_contains`
(search.py lines 1414-1450) with `only_used_to_search=True`: names of
searchable documents whose `relative_path` contains any of the given
substrings; Python returns `list(set(...))`, so the model returns the
union of the per-substring name sets. -/
def document_names_relative_path_contains (collectionDocs : List Document)
    (texts : List String) : Finset String :=
  texts.foldl
    (fun acc t =>
      acc ∪ ((collectionDocs.filter (fun d =>
          d.use_in_search && strContains t d.relative_path)).map
        Document.name).toFinset)
    ∅

/-- The filter specification read out of `search_params` by
`search_with_options` (search.py lines 471-567).  Template ids are already
resolved to `QueryTemplate` records (the model of
`prepare_templates_for_user`, a database lookup). -/
structure SearchParams where
  use_and_operator : Bool
  categories : List String
  documents : List String
  relative_paths : List String
  relative_path_contains : List String
  only_template_documents : Bool
  metadata_filters : List Expression

/-- Outcome of the filter-resolution stage of `search_with_options`: either
one of the early `return {}, {}, []` exits (an empty result for the whole
query) or the continuation into vector search with the combined
`docs_to_search` candidate set. -/
inductive FilterResolution where
  | empty
  | proceed (docs_to_search : Finset String)
deriving DecidableEq

/-- Final combination step of `search_with_options`
(search.py lines 577-611): keep the non-empty resolved name lists in the
fixed order (categories, explicit documents, templates, metadata,
relative-path-contains), fold them with set intersection or union, then
apply the two trailing empty-result checks. -/
def combine_filter_stage (use_and_operator : Bool)
    (categories document_names relative_paths : List String)
    (doc_names_from_cat relative_doc_names metadata_doc_names : Finset String)
    (q_document_names : List String) (was_filter_option : Bool) :
    FilterResolution :=
  let filter_names_lists : List (Finset String) :=
    [doc_names_from_cat, document_names.toFinset, q_document_names.toFinset,
      metadata_doc_names, relative_doc_names].filter (fun s => s ≠ ∅)
  let docs_to_search : Finset String :=
    match filter_names_lists with
    | [] => ∅
    | first :: rest =>
      rest.foldl (fun acc l => if use_and_operator then l ∩ acc else l ∪ acc) first
  if docs_to_search = ∅ ∧ ¬categories.isEmpty = true then .empty
  else if was_filter_option = true ∧ relative_paths.isEmpty = true ∧
      docs_to_search = ∅ then .empty
  else .proceed docs_to_search

/-- Metadata-filter stage of `search_with_options`
(search.py lines 553-568) followed by the combination step: when metadata
filters are given they are resolved (internally with OR, line 563), an
empty resolution under the AND combinator short-circuits, and
`was_filter_option` is set. -/
def metadata_and_combine (collectionDocs : List Document)
    (metadata_filters : List Expression) (use_and_operator : Bool)
    (categories : List String) (doc_names_from_cat : Finset String)
    (document_names relative_paths : List String)
    (relative_doc_names : Finset String) (q_document_names : List String)
    (was_filter_option : Bool) : Except Unit FilterResolution :=
  if metadata_filters.isEmpty then
    .ok (combine_filter_stage use_and_operator categories document_names
      relative_paths doc_names_from_cat relative_doc_names ∅
      q_document_names was_filter_option)
  else
    (filter_documents_based_on_metadata collectionDocs metadata_filters
        false).bind (fun metadata_doc_names =>
      if decide (metadata_doc_names = ∅) && use_and_operator then .ok .empty
      else
        .ok (combine_filter_stage use_and_operator categories document_names
          relative_paths doc_names_from_cat relative_doc_names
          metadata_doc_names q_document_names true))

/-- Filter-resolution stage of
`DBSemanticSearchController.search_with_options` (search.py lines 471-611):
resolve the five filter categories in source order with their early
empty-result exits (`relative_path_contains` at line 509, templates at
lines 546 and 550, metadata at line 567), the `only_template_documents`
clearing of the other inputs, and the final AND/OR combination.  Database
state is passed as `collectionDocs` and `preparedTemplates`. -/
def search_with_options_filter_stage (collectionDocs : List Document)
    (preparedTemplates : List QueryTemplate)
    (parseDate : String → Option Int) (today : Int)
    (evalRule : String → String → Bool) (p : SearchParams) :
    Except Unit FilterResolution :=
  let doc_names_from_cat : Finset String :=
    if p.categories.isEmpty then ∅
    else documents_names_from_categories collectionDocs p.categories
  let relative_doc_names : Finset String :=
    if p.relative_path_contains.isEmpty then ∅
    else document_names_relative_path_contains collectionDocs
      p.relative_path_contains
  let was1 : Bool := !p.relative_path_contains.isEmpty
  if !p.relative_path_contains.isEmpty && decide (relative_doc_names = ∅) &&
      p.use_and_operator then .ok .empty
  else if preparedTemplates.isEmpty then
    metadata_and_combine collectionDocs p.metadata_filters p.use_and_operator
      p.categories doc_names_from_cat p.documents p.relative_paths
      relative_doc_names [] was1
  else
    (get_documents_based_on_templates parseDate today evalRule
        preparedTemplates collectionDocs).bind (fun template_doc_names =>
      let only := p.only_template_documents
      let cat2 : Finset String := if only then ∅ else doc_names_from_cat
      let docn2 : List String := if only then [] else p.documents
      let relp2 : List String := if only then [] else p.relative_paths
      if template_doc_names.isEmpty && only then .ok .empty
      else if template_doc_names.isEmpty && p.use_and_operator then .ok .empty
      else
        metadata_and_combine collectionDocs p.metadata_filters
          p.use_and_operator p.categories cat2 docn2 relp2
          relative_doc_names template_doc_names true)

/-- Search parameters of the claim C1 counterexample: AND combinator, a
category filter that will resolve to no documents, and one explicitly given
document name. -/
def andEmptyCategoryParams : SearchParams :=
  { use_and_operator := true
    categories := ["Sport"]
    documents := ["z"]
    relative_paths := []
    relative_path_contains := []
    only_template_documents := false
    metadata_filters := [] }

/-- Claim C1 counterexample: with `use_and_operator=true`, a `categories`
filter resolving to zero documents (empty collection) and `documents=["z"]`,
resolution does **not** return an empty candidate set: the empty category
list is dropped from the combination (search.py lines 577-586) and the
query proceeds with candidate set `{"z"}`. -/
theorem and_empty_category_not_short_circuited :
    search_with_options_filter_stage [] [] (fun _ => none) 0 (fun _ _ => false)
        andEmptyCategoryParams = .ok (.proceed {"z"}) ∧
    ({"z"} : Finset String) ≠ (∅ : Finset String) := by
  constructor
  · decide
  · decide

/-- Claim C1 amended: with `use_and_operator=true`, an empty resolution of
`relative_path_contains`, of the prepared templates, or of
`metadata_filters` short-circuits the whole query to an empty result
(search.py lines 509, 546, 550, 567); an empty `categories` resolution has
no such early exit and short-circuits only when the final combined set is
empty. -/
theorem and_unsatisfiable_constraint_short_circuits
    (collectionDocs : List Document) (preparedTemplates : List QueryTemplate)
    (parseDate : String → Option Int) (today : Int)
    (evalRule : String → String → Bool) (p : SearchParams)
    (hand : p.use_and_operator = true) :
    ((p.relative_path_contains.isEmpty = false ∧
        document_names_relative_path_contains collectionDocs
          p.relative_path_contains = ∅) →
      search_with_options_filter_stage collectionDocs preparedTemplates
        parseDate today evalRule p = .ok .empty) ∧
    ((preparedTemplates.isEmpty = false ∧
        get_documents_based_on_templates parseDate today evalRule
          preparedTemplates collectionDocs = .ok []) →
      search_with_options_filter_stage collectionDocs preparedTemplates
        parseDate today evalRule p = .ok .empty) ∧
    ((p.metadata_filters.isEmpty = false ∧
        filter_documents_based_on_metadata collectionDocs p.metadata_filters
          false = .ok ∅ ∧
        (preparedTemplates.isEmpty = true ∨
          ∃ tds, get_documents_based_on_templates parseDate today evalRule
            preparedTemplates collectionDocs = .ok tds)) →
      search_with_options_filter_stage collectionDocs preparedTemplates
        parseDate today evalRule p = .ok .empty) := by
  refine ⟨?_, ?_, ?_⟩
  · rintro ⟨h1, h2⟩
    simp [search_with_options_filter_stage, h1, h2, hand]
  · rintro ⟨ht1, ht2⟩
    by_cases hc : (!p.relative_path_contains.isEmpty &&
        decide ((if p.relative_path_contains.isEmpty then ∅
          else document_names_relative_path_contains collectionDocs
            p.relative_path_contains) = ∅) && p.use_and_operator) = true
    · simp only [search_with_options_filter_stage, hc, if_true]
    · simp only [search_with_options_filter_stage, hc, Bool.false_eq_true,
        if_false, ht1, ht2, Except.bind, List.isEmpty_nil, Bool.true_and, hand,
        Bool.and_true]
      cases p.only_template_documents <;> simp
  · rintro ⟨hm1, hm2, hm3⟩
    by_cases hc : (!p.relative_path_contains.isEmpty &&
        decide ((if p.relative_path_contains.isEmpty then ∅
          else document_names_relative_path_contains collectionDocs
            p.relative_path_contains) = ∅) && p.use_and_operator) = true
    · simp only [search_with_options_filter_stage, hc, if_true]
    · cases hpt : preparedTemplates.isEmpty with
      | true =>
        simp only [search_with_options_filter_stage, hc, Bool.false_eq_true,
          if_false, hpt, if_true, metadata_and_combine, hm1, hm2, Except.bind,
          hand, Bool.and_true]
        simp
      | false =>
        rcases hm3 with hm3 | ⟨tds, htds⟩
        · rw [hpt] at hm3; cases hm3
        · simp only [search_with_options_filter_stage, hc, Bool.false_eq_true,
            if_false, hpt, htds, Except.bind]
          cases htde : tds.isEmpty with
          | true =>
            simp only [htde, Bool.true_and, hand, Bool.and_true]
            cases p.only_template_documents <;> simp
          | false =>
            simp only [htde, Bool.false_and, Bool.false_eq_true, if_false,
              metadata_and_combine, hm1, hm2, Except.bind, hand, Bool.and_true]
            simp

/-- Search parameters exercising the `relative_path_contains` short-circuit. -/
def andPathParams : SearchParams :=
  { use_and_operator := true
    categories := []
    documents := []
    relative_paths := []
    relative_path_contains := ["x"]
    only_template_documents := false
    metadata_filters := [] }

/-- Witness for the amended claim C1 at a concrete input: an AND query whose
`relative_path_contains` filter matches no document of an empty collection
resolves to the empty result. -/
theorem and_unsatisfiable_constraint_short_circuits_witness :
    search_with_options_filter_stage [] [] (fun _ => none) 0 (fun _ _ => false)
      andPathParams = .ok .empty :=
  (and_unsatisfiable_constraint_short_circuits [] [] (fun _ => none) 0
      (fun _ _ => false) andPathParams rfl).1 ⟨rfl, by decide⟩

/-- A metadata filter expression with no `operator` entry. -/
def malformedExpression : Expression :=
  { operator := none, field := some [("a", .int 1)] }

/-- A searchable document with non-empty metadata. -/
def metadataDoc : Document :=
  { name := "doc-md"
    relative_path := "p"
    category := none
    use_in_search := true
    metadata_json := some [("a", .int 1)] }

/-- Search parameters carrying only the malformed metadata filter. -/
def malformedFilterParams : SearchParams :=
  { use_and_operator := false
    categories := []
    documents := []
    relative_paths := []
    relative_path_contains := []
    only_template_documents := false
    metadata_filters := [malformedExpression] }

/-- Claim C5 counterexample: a malformed metadata filter expression (missing
`operator`) evaluated against a document with non-empty metadata raises an
`AssertionError` (search.py line 835) that propagates through
`__filter_documents_based_on_metadata` all the way out of the
`search_with_options` filter stage — it is not treated as a non-matching
expression. -/
theorem malformed_expression_raises :
    search_with_options_filter_stage [metadataDoc] [] (fun _ => none) 0
      (fun _ _ => false) malformedFilterParams = .error () := by decide

/-- Claim C5 amended: a malformed expression (missing operator or field, or
an operator outside `POSSIBLE_OPERATORS`) never yields a match: against a
document with `None` or empty metadata the evaluation returns `False`
without raising, and against any other document the validation `assert`
raises an `AssertionError` that propagates to the caller of the search
entry point. -/
theorem malformed_expression_never_matches (e : Expression) (d : Document)
    (hmal : is__proper__expression e = false) :
    is_document_covered_with_metadata_expression d e ≠ .ok true ∧
    ((d.metadata_json = none ∨ d.metadata_json = some []) →
      is_document_covered_with_metadata_expression d e = .ok false) ∧
    (∀ m, d.metadata_json = some m → m.isEmpty = false →
      is_document_covered_with_metadata_expression d e = .error ()) := by
  cases hj : d.metadata_json with
  | none =>
    refine ⟨?_, ?_, ?_⟩
    · simp [is_document_covered_with_metadata_expression, hj]
    · intro _
      simp [is_document_covered_with_metadata_expression, hj]
    · intro m hm
      cases hm
  | some m =>
    cases hme : m.isEmpty with
    | true =>
      have hm0 : m = [] := List.isEmpty_iff.mp hme
      subst hm0
      refine ⟨?_, ?_, ?_⟩
      · simp [is_document_covered_with_metadata_expression, hj]
      · intro _
        simp [is_document_covered_with_metadata_expression, hj]
      · intro m' hm' hne
        cases hm'
        simp at hne
    | false =>
      refine ⟨?_, ?_, ?_⟩
      · simp [is_document_covered_with_metadata_expression, hj, hme, hmal]
      · rintro (h | h)
        · cases h
        · cases h
          simp at hme
      · intro m' hm' _
        cases hm'
        simp [is_document_covered_with_metadata_expression, hj, hme, hmal]

/-- Witness for the amended claim C5 at a concrete input: the malformed
expression against `metadataDoc` is not a match and raises. -/
theorem malformed_expression_never_matches_witness :
    is_document_covered_with_metadata_expression metadataDoc
        malformedExpression ≠ .ok true ∧
    ((metadataDoc.metadata_json = none ∨
        metadataDoc.metadata_json = some []) →
      is_document_covered_with_metadata_expression metadataDoc
        malformedExpression = .ok false) ∧
    (∀ m, metadataDoc.metadata_json = some m → m.isEmpty = false →
      is_document_covered_with_metadata_expression metadataDoc
        malformedExpression = .error ()) :=
  malformed_expression_never_matches malformedExpression metadataDoc (by decide)

/-- A searchable document whose metadata `type` is an unknown string. -/
def unknownTypeDoc : Document :=
  { name := "doc-unknown"
    relative_path := "p"
    category := none
    use_in_search := true
    metadata_json := some [("type", .str "foo")] }

/-- Witness for claim C9 at a concrete input: the unknown-type document is
rejected by `filter_documents` (first pass), so the returned list is empty
and does not contain it. -/
theorem unknown_type_documents_never_qualify_witness :
    unknownTypeDoc ∉ ([] : List Document) :=
  unknown_type_documents_never_qualify (fun _ => none) 0 (fun _ _ => false)
    [unknownTypeDoc] [] unknownTypeDoc [("type", .str "foo")] [] rfl
    (fun s hs => by
      simp [MetaValue.lookupKey] at hs
      subst hs
      refine ⟨by decide, by decide, by decide⟩)
    (by decide)

/-- The per-document statistics dictionary built by
`DBSemanticSearchController.prepare_documents_stats`
(search.py lines 1137-1176).  The numeric type is a parameter so that the
rank-mass selector can be studied both over `ℝ` (the model of Python
floats) and over `ℚ`. -/
structure DocStats (α : Type) where
  score : α
  score_weighted : α
  hits : Nat
  pages : List Int
  pages_count : Nat
  relative_path : String
  score_weighted_scaled : α
deriving DecidableEq, Repr

/-- One entry of `postgres_docs`, restricted to the `result["text"]` fields
`prepare_documents_stats` reads. -/
structure PGText where
  document_name : String
  score : ℝ
  page_number : Int
  relative_path : String

/-- The fresh statistics record for a document's first hit
(search.py lines 1143-1151). -/
def statsInit (relative_path : String) : DocStats ℝ :=
  { score := 0, score_weighted := 0, hits := 0, pages := [], pages_count := 0,
    relative_path := relative_path, score_weighted_scaled := 0 }

/-- Accumulate one raw hit into a document's record
(search.py lines 1152-1154). -/
def addHitTo (s : DocStats ℝ) (score : ℝ) (page : Int) : DocStats ℝ :=
  { s with
    hits := s.hits + 1
    score := s.score + score
    pages := s.pages ++ [page] }

/-- One iteration of the first loop of `prepare_documents_stats`: create the
entry on first sight of the document name (dict insertion order), then
accumulate the hit. -/
def addHit (stats : List (String × DocStats ℝ)) (h : PGText) :
    List (String × DocStats ℝ) :=
  let stats' :=
    if stats.any (fun p => p.1 = h.document_name) then stats
    else stats ++ [(h.document_name, statsInit h.relative_path)]
  stats'.map (fun p =>
    if p.1 = h.document_name then (p.1, addHitTo p.2 h.score h.page_number)
    else p)

/-- First loop of `prepare_documents_stats` over all raw hits. -/
def aggregateHits (postgres_docs : List PGText) : List (String × DocStats ℝ) :=
  postgres_docs.foldl addHit []

/-- Second loop of `prepare_documents_stats` (search.py lines 1157-1164):
mean score, sorted distinct pages, and the weighted score
`log(score * hits * pages_count)` (Python `math.log`, modelled by
`Real.log`; like the source, nothing guards a non-positive product). -/
noncomputable def finalizeStats (s : DocStats ℝ) : DocStats ℝ :=
  let score := s.score / (s.hits : ℝ)
  let pages := (s.pages.eraseDups).insertionSort (· ≤ ·)
  { s with
    score := score
    pages := pages
    pages_count := pages.length
    score_weighted := Real.log (score * (s.hits : ℝ) * (pages.length : ℝ)) }

/-- The aggregated and finalized statistics list, before scaling. -/
noncomputable def finalizedStats (postgres_docs : List PGText) :
    List (String × DocStats ℝ) :=
  (aggregateHits postgres_docs).map (fun p => (p.1, finalizeStats p.2))

/-- The `w_scores` list of `prepare_documents_stats` (search.py line 1164). -/
def wScores (stats : List (String × DocStats ℝ)) : List ℝ :=
  stats.map (fun p => p.2.score_weighted)

/-- Python `min(l)` on a non-empty list (`min([])` raises; the model returns
`0` there, a case outside every claim, which all assume a non-empty input). -/
def pyMinList (l : List ℝ) : ℝ :=
  match l with
  | [] => 0
  | x :: xs => xs.foldl min x

/-- `min_w_scores = abs(min(w_scores))` (search.py line 1166). -/
noncomputable def minWScores (stats : List (String × DocStats ℝ)) : ℝ :=
  |pyMinList (wScores stats)|

/-- `sum_w_scores = sum(s + min_w_scores for s in w_scores)`
(search.py line 1167). -/
noncomputable def sumWScores (stats : List (String × DocStats ℝ)) : ℝ :=
  ((wScores stats).map (fun w => w + minWScores stats)).sum

/-- Third loop of `prepare_documents_stats` (search.py lines 1168-1175):
percentage-like scaling with the smoothing floor, or the constant `1.0`
when the shifted sum is not positive. -/
noncomputable def scaleStats (smooth_factor : ℝ)
    (stats : List (String × DocStats ℝ)) : List (String × DocStats ℝ) :=
  stats.map (fun p =>
    (p.1,
      { p.2 with
        score_weighted_scaled :=
          (if sumWScores stats > 0 then
            max smooth_factor
              ((p.2.score_weighted + minWScores stats) / sumWScores stats)
          else 1) }))

/-- `DBSemanticSearchController.prepare_documents_stats`
(search.py lines 1116-1176). -/
noncomputable def prepare_documents_stats (postgres_docs : List PGText)
    (smooth_factor : ℝ := 1 / 10000) : List (String × DocStats ℝ) :=
  scaleStats smooth_factor (finalizedStats postgres_docs)

/-- Walk loop of `get_accumulated_docs_by_rank_perc`
(search.py lines 1066-1073): stop as soon as the running total has reached
the target, otherwise append the document and accumulate its scaled
score. -/
def accumulateWalk {α : Type} [LinearOrderedField α] (perc_max : α) :
    List (String × DocStats α) → α → List String
  | [], _ => []
  | p :: rest, accum =>
    if accum ≥ perc_max then []
    else p.1 :: accumulateWalk perc_max rest (accum + p.2.score_weighted_scaled)

/-- `DBSemanticSearchController.get_accumulated_docs_by_rank_perc`
(search.py lines 1035-1073): stable sort by `score_weighted_scaled`
descending (Python `sorted(..., reverse=True)`), percentage normalization
of a target above `1`, then the accumulation walk from `0`. -/
def get_accumulated_docs_by_rank_perc {α : Type} [LinearOrderedField α]
    (stats : List (String × DocStats α)) (perc_rank_gen_qa : α) :
    List String :=
  let sorted := stats.insertionSort
    (fun a b => b.2.score_weighted_scaled ≤ a.2.score_weighted_scaled)
  let perc_max := if perc_rank_gen_qa > 1 then perc_rank_gen_qa / 100
    else perc_rank_gen_qa
  accumulateWalk perc_max sorted 0

/-- Claim C7: a rank-mass target of `40` is treated as a percentage, so the
selection behaves exactly as with target `0.40`. -/
theorem rank_perc_percentage_normalization (stats : List (String × DocStats ℝ)) :
    get_accumulated_docs_by_rank_perc stats 40 =
      get_accumulated_docs_by_rank_perc stats (0.40 : ℝ) := by
  simp only [get_accumulated_docs_by_rank_perc]
  rw [if_pos (by norm_num : (40 : ℝ) > 1),
    if_neg (by norm_num : ¬((0.40 : ℝ) > 1))]
  congr 1
  norm_num

/-- Cumulative scaled mass of the first `i` entries of a stats list. -/
def prefixMass (l : List (String × DocStats ℝ)) (i : Nat) : ℝ :=
  ((l.take i).map (fun p => p.2.score_weighted_scaled)).sum

/-- Prefix mass of a cons at a successor index. -/
theorem prefixMass_cons_succ (p : String × DocStats ℝ)
    (l : List (String × DocStats ℝ)) (i : Nat) :
    prefixMass (p :: l) (i + 1) = p.2.score_weighted_scaled + prefixMass l i := by
  simp [prefixMass, List.take_succ_cons]

/-- Characterization of the accumulation walk: it returns the names of a
prefix of the list, cut exactly at the first position whose preceding
cumulative mass reaches the target. -/
theorem accumulateWalk_spec (pm : ℝ) :
    ∀ (l : List (String × DocStats ℝ)) (accum : ℝ),
      ∃ k, k ≤ l.length ∧
        accumulateWalk pm l accum = (l.take k).map Prod.fst ∧
        (∀ i < k, accum + prefixMass l i < pm) ∧
        (k < l.length → accum + prefixMass l k ≥ pm)
  | [], accum => by
    refine ⟨0, Nat.le_refl 0, rfl, ?_, ?_⟩
    · intro i hi
      cases hi
    · intro h
      cases h
  | p :: rest, accum => by
    by_cases hstop : accum ≥ pm
    · refine ⟨0, Nat.zero_le _, ?_, ?_, ?_⟩
      · simp [accumulateWalk, hstop]
      · intro i hi
        cases hi
      · intro _
        simpa [prefixMass] using hstop
    · rcases accumulateWalk_spec pm rest (accum + p.2.score_weighted_scaled)
        with ⟨k, hk, hwalk, hlt, hge⟩
      refine ⟨k + 1, Nat.succ_le_succ hk, ?_, ?_, ?_⟩
      · simp [accumulateWalk, hstop, hwalk, List.take_succ_cons]
      · intro i hi
        cases i with
        | zero =>
          simpa [prefixMass] using lt_of_not_ge hstop
        | succ j =>
          rw [prefixMass_cons_succ, ← add_assoc]
          exact hlt j (Nat.lt_of_succ_lt_succ hi)
      · intro hklen
        rw [prefixMass_cons_succ, ← add_assoc]
        exact hge (Nat.lt_of_succ_lt_succ hklen)

/-- Claim C6: rank-mass selection with a target `t ∈ (0, 1]` returns the
empty list on an empty stats map; on a single-document map it returns
exactly that document; and in general it returns the names of the prefix of
the descending-sorted list cut at the first position whose preceding
accumulated mass reaches `t` (the document that first reaches `t` is
included, every document considered after the mass has met `t` is not). -/
theorem rank_mass_selection_spec (stats : List (String × DocStats ℝ)) (t : ℝ)
    (ht0 : 0 < t) (ht1 : t ≤ 1) :
    get_accumulated_docs_by_rank_perc ([] : List (String × DocStats ℝ)) t = [] ∧
    (∀ (n : String) (s : DocStats ℝ),
      get_accumulated_docs_by_rank_perc [(n, s)] t = [n]) ∧
    (∃ k, k ≤ (stats.insertionSort
        (fun a b => b.2.score_weighted_scaled ≤ a.2.score_weighted_scaled)).length ∧
      get_accumulated_docs_by_rank_perc stats t =
        ((stats.insertionSort
          (fun a b => b.2.score_weighted_scaled ≤ a.2.score_weighted_scaled)).take
            k).map Prod.fst ∧
      (∀ i < k, prefixMass (stats.insertionSort
        (fun a b => b.2.score_weighted_scaled ≤ a.2.score_weighted_scaled)) i < t) ∧
      (k < (stats.insertionSort
          (fun a b => b.2.score_weighted_scaled ≤ a.2.score_weighted_scaled)).length →
        prefixMass (stats.insertionSort
          (fun a b => b.2.score_weighted_scaled ≤ a.2.score_weighted_scaled)) k ≥ t)) := by
  have hpm : ¬(t > 1) := not_lt.mpr ht1
  refine ⟨?_, ?_, ?_⟩
  · simp [get_accumulated_docs_by_rank_perc, hpm, List.insertionSort,
      accumulateWalk]
  · intro n s
    simp [get_accumulated_docs_by_rank_perc, hpm, List.insertionSort,
      List.orderedInsert, accumulateWalk, not_le.mpr ht0]
  · rcases accumulateWalk_spec t (stats.insertionSort
        (fun a b => b.2.score_weighted_scaled ≤ a.2.score_weighted_scaled)) 0
      with ⟨k, hk, hwalk, hlt, hge⟩
    refine ⟨k, hk, ?_, ?_, ?_⟩
    · simpa [get_accumulated_docs_by_rank_perc, hpm] using hwalk
    · intro i hi
      have := hlt i hi
      rwa [zero_add] at this
    · intro hklen
      have := hge hklen
      rwa [zero_add] at this

/-- Witness for claim C6 at a concrete input: with a single document of
scaled score `1` and target `0.999`, the selection returns exactly that
document (and the empty map yields the empty list). -/
theorem rank_mass_selection_spec_witness :
    get_accumulated_docs_by_rank_perc ([] : List (String × DocStats ℝ))
        (999 / 1000) = [] ∧
    get_accumulated_docs_by_rank_perc
        [("A", (⟨1, 1, 1, [1], 1, "pa", 1⟩ : DocStats ℝ))] (999 / 1000) = ["A"] := by
  have h := rank_mass_selection_spec [] (999 / 1000) (by norm_num) (by norm_num)
  exact ⟨h.1, h.2.1 "A" ⟨1, 1, 1, [1], 1, "pa", 1⟩⟩

/-- Raw hits of the end-to-end scenario: document A with five hits of score
`2.0` on pages 1, 2, 3 (pages 1 and 2 twice), document B with one hit of
score `1.0` on page 1. -/
def scenarioDocs : List PGText :=
  [⟨"A", 2, 1, "pa"⟩, ⟨"A", 2, 2, "pa"⟩, ⟨"A", 2, 3, "pa"⟩,
   ⟨"A", 2, 1, "pa"⟩, ⟨"A", 2, 2, "pa"⟩, ⟨"B", 1, 1, "pb"⟩]

/-- Aggregation of the scenario hits: A has 5 hits of total score 10 on
page list `[1, 2, 3, 1, 2]`, B has 1 hit of score 1 on page `[1]`. -/
theorem aggregate_scenario_eval :
    aggregateHits scenarioDocs =
      [("A", ⟨10, 0, 5, [1, 2, 3, 1, 2], 0, "pa", 0⟩),
       ("B", ⟨1, 0, 1, [1], 0, "pb", 0⟩)] := by
  norm_num [aggregateHits, scenarioDocs, addHit, addHitTo, statsInit]
  norm_num [show ("A" : String) ≠ "B" from by decide, List.map]

/-- The finalized scenario statistics: A has mean score 2 on 3 distinct
pages with weighted score `ln 30 = ln(2*5*3)`, B mean score 1 on 1 page
with weighted score `ln 1 = 0`. -/
noncomputable def scenarioFinal : List (String × DocStats ℝ) :=
  [("A", ⟨2, Real.log 30, 5, [1, 2, 3], 3, "pa", 0⟩),
   ("B", ⟨1, 0, 1, [1], 1, "pb", 0⟩)]

/-- Finalization of the scenario aggregation. -/
theorem finalized_scenario_eval : finalizedStats scenarioDocs = scenarioFinal := by
  rw [finalizedStats, aggregate_scenario_eval]
  simp only [List.map_cons, List.map_nil, finalizeStats, scenarioFinal]
  have hpg : ((([1, 2, 3, 1, 2] : List Int).eraseDups).insertionSort (· ≤ ·)) =
      [1, 2, 3] := by decide
  have hpg2 : ((([1] : List Int).eraseDups).insertionSort (· ≤ ·)) = [1] := by
    decide
  simp only [hpg, hpg2]
  norm_num

/-- The minimum weighted score of the scenario is `0` (B's `ln 1`), so the
absolute shift is `0`. -/
theorem minW_scenario_eval : minWScores scenarioFinal = 0 := by
  have hnn : (0 : ℝ) ≤ Real.log 30 := Real.log_nonneg (by norm_num)
  simp [minWScores, wScores, scenarioFinal, pyMinList, min_eq_right hnn]

/-- The shifted sum of the scenario weighted scores is `ln 30`. -/
theorem sumW_scenario_eval : sumWScores scenarioFinal = Real.log 30 := by
  rw [sumWScores, minW_scenario_eval]
  simp [wScores, scenarioFinal]

/-- The scaled scenario statistics: A gets share `1`, B is floored to the
smoothing value `1/10000`. -/
noncomputable def scenarioScaled : List (String × DocStats ℝ) :=
  [("A", ⟨2, Real.log 30, 5, [1, 2, 3], 3, "pa", 1⟩),
   ("B", ⟨1, 0, 1, [1], 1, "pb", 1 / 10000⟩)]

/-- Full evaluation of `prepare_documents_stats` on the scenario input with
the default smoothing factor. -/
theorem prepare_scenario_eval :
    prepare_documents_stats scenarioDocs = scenarioScaled := by
  have hlog : (0 : ℝ) < Real.log 30 := Real.log_pos (by norm_num)
  rw [prepare_documents_stats, finalized_scenario_eval]
  simp only [scaleStats]
  simp only [sumW_scenario_eval, minW_scenario_eval]
  simp only [scenarioFinal, scenarioScaled, List.map_cons, List.map_nil]
  rw [if_pos hlog, if_pos hlog]
  simp only [add_zero, div_self (ne_of_gt hlog), zero_add, zero_div]
  rw [max_eq_right (by norm_num : (1 : ℝ) / 10000 ≤ 1),
    max_eq_left (by norm_num : (0 : ℝ) ≤ 1 / 10000)]

/-- Claim C8: the end-to-end scenario.  A (hits 5, pages 1-3, mean 2.0) gets
weighted score `ln 30` and scaled share `1.0`; B (hit 1, page 1, mean 1.0)
gets weighted score `0` and the smoothing floor `0.0001`; rank-mass
selection with target `0.5` on these statistics returns exactly `["A"]`. -/
theorem end_to_end_scenario :
    (prepare_documents_stats scenarioDocs).map
        (fun p => (p.1, p.2.score_weighted)) =
      [("A", Real.log 30), ("B", 0)] ∧
    (prepare_documents_stats scenarioDocs).map
        (fun p => (p.1, p.2.score_weighted_scaled)) =
      [("A", 1), ("B", 1 / 10000)] ∧
    get_accumulated_docs_by_rank_perc (prepare_documents_stats scenarioDocs)
        (1 / 2) = ["A"] := by
  refine ⟨?_, ?_, ?_⟩
  · rw [prepare_scenario_eval]
    rfl
  · rw [prepare_scenario_eval]
    rfl
  · rw [prepare_scenario_eval]
    rw [get_accumulated_docs_by_rank_perc]
    simp only [scenarioScaled, List.insertionSort, List.orderedInsert]
    rw [if_pos (by norm_num : ((⟨1, 0, 1, [1], 1, "pb", 1 / 10000⟩ :
        DocStats ℝ)).score_weighted_scaled ≤
        ((⟨2, Real.log 30, 5, [1, 2, 3], 3, "pa", 1⟩ :
        DocStats ℝ)).score_weighted_scaled)]
    rw [if_neg (by norm_num : ¬((1 : ℝ) / 2 > 1))]
    rw [accumulateWalk, if_neg (by norm_num : ¬((0 : ℝ) ≥ 1 / 2))]
    rw [accumulateWalk]
    rw [if_pos (by norm_num : ((0 : ℝ) +
        ((⟨2, Real.log 30, 5, [1, 2, 3], 3, "pa", 1⟩ :
          DocStats ℝ)).score_weighted_scaled ≥ 1 / 2))]

/-- Claim C2 counterexample: on the scenario input the shifted sum is
positive (`ln 30 > 0`), yet the scaled shares sum to `1.0001`, which exceeds
`1 + 1e-9` — the smoothing floor pushes the total **above** one, refuting
the claimed `≤ 1` invariant. -/
theorem scaled_sum_exceeds_one :
    sumWScores (finalizedStats scenarioDocs) > 0 ∧
    ¬(((prepare_documents_stats scenarioDocs).map
        (fun p => p.2.score_weighted_scaled)).sum ≤ 1 + 1 / 10 ^ 9) := by
  constructor
  · rw [finalized_scenario_eval, sumW_scenario_eval]
    exact Real.log_pos (by norm_num)
  · rw [prepare_scenario_eval]
    simp only [scenarioScaled, List.map_cons, List.map_nil, List.sum_cons,
      List.sum_nil]
    norm_num

/-- Lower bounds of a running fold by `min` over a list. -/
theorem foldl_min_le (xs : List ℝ) :
    ∀ a : ℝ, xs.foldl min a ≤ a ∧ ∀ w ∈ xs, xs.foldl min a ≤ w := by
  induction xs with
  | nil =>
    intro a
    exact ⟨le_refl a, fun w hw => absurd hw (List.not_mem_nil w)⟩
  | cons y ys ih =>
    intro a
    have h := ih (min a y)
    simp only [List.foldl_cons]
    refine ⟨le_trans h.1 (min_le_left a y), ?_⟩
    intro w hw
    rcases List.mem_cons.mp hw with rfl | hw'
    · exact le_trans h.1 (min_le_right a w)
    · exact h.2 w hw'

/-- Python `min` of a list bounds every member. -/
theorem pyMinList_le (l : List ℝ) (w : ℝ) (hw : w ∈ l) : pyMinList l ≤ w := by
  cases l with
  | nil => cases hw
  | cons x xs =>
    rcases List.mem_cons.mp hw with rfl | hw'
    · exact (foldl_min_le xs w).1
    · exact (foldl_min_le xs x).2 w hw'

/-- Every weighted score shifted by the absolute minimum is non-negative. -/
theorem shifted_nonneg (ws : List ℝ) (w : ℝ) (hw : w ∈ ws) :
    0 ≤ w + |pyMinList ws| := by
  have h1 := pyMinList_le ws w hw
  have h2 : -|pyMinList ws| ≤ pyMinList ws := neg_abs_le _
  linarith

/-- Distributing a division over a list sum. -/
theorem sum_map_div (l : List ℝ) (f : ℝ → ℝ) (S : ℝ) :
    (l.map (fun x => f x / S)).sum = (l.map f).sum / S := by
  induction l with
  | nil => simp
  | cons a t ih => simp [ih, add_div]

/-- Summing a constant shift over a list. -/
theorem sum_map_add_const (l : List ℝ) (f : ℝ → ℝ) (c : ℝ) :
    (l.map (fun x => f x + c)).sum = (l.map f).sum + l.length * c := by
  induction l with
  | nil => simp
  | cons a t ih =>
    simp only [List.map_cons, List.sum_cons, ih, List.length_cons]
    push_cast
    ring

/-- Claim C2 amended: for a non-empty input, when the shifted sum `sum_w` is
strictly positive the scaled shares sum to **at least** `1` (the smoothing
floor can only push the total above the exact unit mass) and to at most
`1 + n * smooth_factor` for `n` documents; when `sum_w` is not positive
every document's `score_weighted_scaled` is exactly `1.0`. -/
theorem prepare_stats_scaled_sum_bounds (postgres_docs : List PGText)
    (smooth : ℝ) (hne : postgres_docs ≠ []) (hsm : 0 ≤ smooth) :
    (sumWScores (finalizedStats postgres_docs) > 0 →
      1 ≤ ((prepare_documents_stats postgres_docs smooth).map
          (fun p => p.2.score_weighted_scaled)).sum ∧
      ((prepare_documents_stats postgres_docs smooth).map
          (fun p => p.2.score_weighted_scaled)).sum ≤
        1 + (prepare_documents_stats postgres_docs smooth).length * smooth) ∧
    (sumWScores (finalizedStats postgres_docs) ≤ 0 →
      ∀ p ∈ prepare_documents_stats postgres_docs smooth,
        p.2.score_weighted_scaled = 1) := by
  have hmap : (prepare_documents_stats postgres_docs smooth).map
      (fun p => p.2.score_weighted_scaled) =
      (wScores (finalizedStats postgres_docs)).map
        (fun w => if sumWScores (finalizedStats postgres_docs) > 0 then
          max smooth ((w + minWScores (finalizedStats postgres_docs)) /
            sumWScores (finalizedStats postgres_docs))
        else 1) := by
    simp [prepare_documents_stats, scaleStats, wScores, List.map_map,
      Function.comp]
  have hlen : (prepare_documents_stats postgres_docs smooth).length =
      (wScores (finalizedStats postgres_docs)).length := by
    simp [prepare_documents_stats, scaleStats, wScores]
  have hSdef : sumWScores (finalizedStats postgres_docs) =
      ((wScores (finalizedStats postgres_docs)).map
        (fun w => w + minWScores (finalizedStats postgres_docs))).sum := rfl
  have hmdef : minWScores (finalizedStats postgres_docs) =
      |pyMinList (wScores (finalizedStats postgres_docs))| := rfl
  constructor
  · intro hS0
    have hshare : ((wScores (finalizedStats postgres_docs)).map
        (fun w => (w + minWScores (finalizedStats postgres_docs)) /
          sumWScores (finalizedStats postgres_docs))).sum = 1 := by
      rw [sum_map_div, ← hSdef]
      exact div_self (ne_of_gt hS0)
    constructor
    · rw [hmap]
      calc (1 : ℝ)
          = ((wScores (finalizedStats postgres_docs)).map
              (fun w => (w + minWScores (finalizedStats postgres_docs)) /
                sumWScores (finalizedStats postgres_docs))).sum := hshare.symm
        _ ≤ _ := by
            apply List.sum_le_sum
            intro w hw
            rw [if_pos hS0]
            exact le_max_right _ _
    · rw [hmap]
      calc ((wScores (finalizedStats postgres_docs)).map
            (fun w => if sumWScores (finalizedStats postgres_docs) > 0 then
              max smooth ((w + minWScores (finalizedStats postgres_docs)) /
                sumWScores (finalizedStats postgres_docs))
            else 1)).sum
          ≤ ((wScores (finalizedStats postgres_docs)).map
              (fun w => (w + minWScores (finalizedStats postgres_docs)) /
                sumWScores (finalizedStats postgres_docs) + smooth)).sum := by
            apply List.sum_le_sum
            intro w hw
            rw [if_pos hS0]
            have hx : 0 ≤ (w + minWScores (finalizedStats postgres_docs)) /
                sumWScores (finalizedStats postgres_docs) := by
              apply div_nonneg
              · rw [hmdef]
                exact shifted_nonneg _ w hw
              · exact le_of_lt hS0
            exact max_le (le_add_of_nonneg_left hx)
              (le_add_of_nonneg_right hsm)
        _ = 1 + (prepare_documents_stats postgres_docs smooth).length *
              smooth := by
            rw [sum_map_add_const, hshare, hlen]
  · intro hSneg p hp
    simp only [prepare_documents_stats, scaleStats, List.mem_map] at hp
    rcases hp with ⟨q, hq, rfl⟩
    simp [if_neg (not_lt.mpr hSneg)]

/-- Witness for the amended claim C2 at the concrete scenario input with
the default smoothing factor. -/
theorem prepare_stats_scaled_sum_bounds_witness :
    scenarioDocs ≠ [] ∧ (0 : ℝ) ≤ 1 / 10000 ∧
    ((sumWScores (finalizedStats scenarioDocs) > 0 →
      1 ≤ ((prepare_documents_stats scenarioDocs (1 / 10000)).map
          (fun p => p.2.score_weighted_scaled)).sum ∧
      ((prepare_documents_stats scenarioDocs (1 / 10000)).map
          (fun p => p.2.score_weighted_scaled)).sum ≤
        1 + (prepare_documents_stats scenarioDocs (1 / 10000)).length *
          (1 / 10000)) ∧
    (sumWScores (finalizedStats scenarioDocs) ≤ 0 →
      ∀ p ∈ prepare_documents_stats scenarioDocs (1 / 10000),
        p.2.score_weighted_scaled = 1)) :=
  ⟨by simp [scenarioDocs], by norm_num,
    prepare_stats_scaled_sum_bounds scenarioDocs (1 / 10000)
      (by simp [scenarioDocs]) (by norm_num)⟩
